import Mathlib

/-!
Verification development for the invoice-processing RPA pipeline.

The Python source is embedded shallowly:
* Pydantic's `InvoiceData.model_validate` (ai/azure_openai_validator.py)
  becomes a total function from a raw decoded JSON object to
  `Except (List String) InvoiceData`; floats are modelled as rationals.
* The tenacity-decorated `validate_and_structure_invoice` becomes an
  explicit bounded retry loop over an environment of per-attempt
  collaborator responses.
* `_apply_business_rules`, the orchestrator's semantic-similarity gate,
  `process_invoice` and its statistics counters (rpa/invoice_processors.py)
  become explicit state-passing functions.
* The OCR engine's `extract_text`, field extraction patterns,
  `_post_process_fields` and `_normalize_date` (ocr/ocr_engine.py) become
  executable scanners and normalizers over lists of characters.
* `_deskew`'s angle normalization (preprocessing/image_processor.py) is
  embedded over rational angles with the rotation kept abstract.
-/

/-- Raw JSON value for one field of the decoded collaborator response: the
key may be absent, present with an unusable type, or present with a usable
value of the expected shape. -/
inductive RawField (α : Type) where
  | absent
  | invalid
  | val (a : α)
deriving DecidableEq

/-- Line items are `List[Dict]` in the source: arbitrary JSON objects with
no per-item validation; we model a dict as an association list. -/
abbrev JsonDict := List (String × String)

/-- The validated invoice record, mirroring the Pydantic `InvoiceData`
model field for field, in declaration order. Floats are rationals. -/
structure InvoiceData where
  invoice_number : String
  invoice_date : String
  supplier_name : String
  supplier_vat : String
  supplier_address : Option String
  customer_name : String
  customer_vat : String
  customer_address : Option String
  subtotal : ℚ
  vat_rate : ℚ
  vat_amount : ℚ
  total_amount : ℚ
  line_items : List JsonDict
  payment_terms : Option String
  due_date : Option String
  currency : String
  ocr_confidence : ℚ
  ai_validation_score : ℚ
  validation_notes : List String
  requires_manual_review : Bool
deriving DecidableEq

/-- The decoded JSON dictionary handed to `InvoiceData.model_validate`,
one `RawField` per model field, plus the extra `confidence_score` key that
`validate_and_structure_invoice` reads before validating. -/
structure RawInvoice where
  invoice_number : RawField String
  invoice_date : RawField String
  supplier_name : RawField String
  supplier_vat : RawField String
  supplier_address : RawField (Option String)
  customer_name : RawField String
  customer_vat : RawField String
  customer_address : RawField (Option String)
  subtotal : RawField ℚ
  vat_rate : RawField ℚ
  vat_amount : RawField ℚ
  total_amount : RawField ℚ
  line_items : RawField (List JsonDict)
  payment_terms : RawField (Option String)
  due_date : RawField (Option String)
  currency : RawField String
  ocr_confidence : RawField ℚ
  ai_validation_score : RawField ℚ
  validation_notes : RawField (List String)
  requires_manual_review : RawField Bool
  confidence_score : RawField ℚ
deriving DecidableEq

/-- Validate one required field: absent or ill-typed input is an error,
otherwise the field-level constraint `check` runs. -/
def vField {α : Type} (f : RawField α) (name : String) (check : α → Option String) :
    Except String α :=
  match f with
  | .absent => .error (name ++ ": field required")
  | .invalid => .error (name ++ ": invalid input")
  | .val a =>
    match check a with
    | some msg => .error msg
    | none => .ok a

/-- Validate one defaulted field: an absent key takes the default without
running the constraint (Pydantic's validate_default is off). -/
def vFieldD {α : Type} (f : RawField α) (name : String) (dflt : α)
    (check : α → Option String) : Except String α :=
  match f with
  | .absent => .ok dflt
  | .invalid => .error (name ++ ": invalid input")
  | .val a =>
    match check a with
    | some msg => .error msg
    | none => .ok a

/-- Pattern `^\d{11}$` used for both VAT id fields. -/
def digits11 (s : String) : Bool :=
  s.toList.length == 11 && s.toList.all Char.isDigit

/-- Pattern `^\d{4}-\d{2}-\d{2}$` used for `invoice_date`. -/
def isoDatePattern (s : String) : Bool :=
  match s.toList with
  | [a, b, c, d, h1, m1, m2, h2, d1, d2] =>
    a.isDigit && b.isDigit && c.isDigit && d.isDigit && h1 == '-' &&
      m1.isDigit && m2.isDigit && h2 == '-' && d1.isDigit && d2.isDigit
  | _ => false

/-- Pattern `^[A-Z]{3}$` used for `currency`. -/
def currency3 (s : String) : Bool :=
  s.toList.length == 3 && s.toList.all (fun c => 'A' ≤ c && c ≤ 'Z')

def vInvoiceNumber (r : RawInvoice) : Except String String :=
  vField r.invoice_number "invoice_number" (fun _ => none)

def vInvoiceDate (r : RawInvoice) : Except String String :=
  vField r.invoice_date "invoice_date"
    (fun s => if isoDatePattern s then none
              else some "invoice_date: string should match the date pattern")

def vSupplierName (r : RawInvoice) : Except String String :=
  vField r.supplier_name "supplier_name" (fun _ => none)

def vSupplierVat (r : RawInvoice) : Except String String :=
  vField r.supplier_vat "supplier_vat"
    (fun s => if digits11 s then none
              else some "supplier_vat: string should match 11 digits")

def vSupplierAddress (r : RawInvoice) : Except String (Option String) :=
  vFieldD r.supplier_address "supplier_address" none (fun _ => none)

def vCustomerName (r : RawInvoice) : Except String String :=
  vField r.customer_name "customer_name" (fun _ => none)

def vCustomerVat (r : RawInvoice) : Except String String :=
  vField r.customer_vat "customer_vat"
    (fun s => if digits11 s then none
              else some "customer_vat: string should match 11 digits")

def vCustomerAddress (r : RawInvoice) : Except String (Option String) :=
  vFieldD r.customer_address "customer_address" none (fun _ => none)

def vSubtotal (r : RawInvoice) : Except String ℚ :=
  vField r.subtotal "subtotal"
    (fun q => if 0 < q then none
              else some "subtotal: input should be greater than 0")

def vVatRate (r : RawInvoice) : Except String ℚ :=
  vFieldD r.vat_rate "vat_rate" (22/100)
    (fun q => if 0 ≤ q ∧ q ≤ 1 then none
              else some "vat_rate: input should be between 0 and 1")

/-- The declarative `ge=0` constraint on `vat_amount`, before the
`validate_vat` field validator runs. -/
def vVatAmountBase (r : RawInvoice) : Except String ℚ :=
  vField r.vat_amount "vat_amount"
    (fun q => if 0 ≤ q then none
              else some "vat_amount: input should be greater than or equal to 0")

/-- Field validator `validate_vat`: runs only when `subtotal` and
`vat_rate` validated successfully (they are then in `info.data`), and
rejects when `|v - subtotal * vat_rate| > 0.01`. -/
def vVatAmount (r : RawInvoice) : Except String ℚ :=
  match vVatAmountBase r, vSubtotal r, vVatRate r with
  | .ok v, .ok s, .ok rt =>
    if |v - s * rt| > 1/100 then
      .error "vat_amount: VAT does not match subtotal times rate"
    else .ok v
  | base, _, _ => base

/-- The declarative `gt=0` constraint on `total_amount`, before the
`validate_total` field validator runs. -/
def vTotalAmountBase (r : RawInvoice) : Except String ℚ :=
  vField r.total_amount "total_amount"
    (fun q => if 0 < q then none
              else some "total_amount: input should be greater than 0")

/-- Field validator `validate_total`: runs only when `subtotal` and
`vat_amount` validated successfully, and rejects when
`|v - (subtotal + vat_amount)| > 0.01`. -/
def vTotalAmount (r : RawInvoice) : Except String ℚ :=
  match vTotalAmountBase r, vSubtotal r, vVatAmount r with
  | .ok v, .ok s, .ok va =>
    if |v - (s + va)| > 1/100 then
      .error "total_amount: total does not match subtotal plus VAT"
    else .ok v
  | base, _, _ => base

def vLineItems (r : RawInvoice) : Except String (List JsonDict) :=
  vFieldD r.line_items "line_items" [] (fun _ => none)

def vPaymentTerms (r : RawInvoice) : Except String (Option String) :=
  vFieldD r.payment_terms "payment_terms" none (fun _ => none)

def vDueDate (r : RawInvoice) : Except String (Option String) :=
  vFieldD r.due_date "due_date" none (fun _ => none)

def vCurrency (r : RawInvoice) : Except String String :=
  vFieldD r.currency "currency" "EUR"
    (fun s => if currency3 s then none
              else some "currency: string should match three capital letters")

def vOcrConfidence (r : RawInvoice) : Except String ℚ :=
  vField r.ocr_confidence "ocr_confidence"
    (fun q => if 0 ≤ q ∧ q ≤ 100 then none
              else some "ocr_confidence: input should be between 0 and 100")

def vAiScore (r : RawInvoice) : Except String ℚ :=
  vField r.ai_validation_score "ai_validation_score"
    (fun q => if 0 ≤ q ∧ q ≤ 1 then none
              else some "ai_validation_score: input should be between 0 and 1")

def vNotes (r : RawInvoice) : Except String (List String) :=
  vFieldD r.validation_notes "validation_notes" [] (fun _ => none)

def vRequires (r : RawInvoice) : Except String Bool :=
  vFieldD r.requires_manual_review "requires_manual_review" false (fun _ => none)

def errOpt {α : Type} : Except String α → Option String
  | .error e => some e
  | .ok _ => none

/-- All per-field errors in field order, as Pydantic collects them. -/
def validationErrors (r : RawInvoice) : List String :=
  [errOpt (vInvoiceNumber r), errOpt (vInvoiceDate r), errOpt (vSupplierName r),
   errOpt (vSupplierVat r), errOpt (vSupplierAddress r), errOpt (vCustomerName r),
   errOpt (vCustomerVat r), errOpt (vCustomerAddress r), errOpt (vSubtotal r),
   errOpt (vVatRate r), errOpt (vVatAmount r), errOpt (vTotalAmount r),
   errOpt (vLineItems r), errOpt (vPaymentTerms r), errOpt (vDueDate r),
   errOpt (vCurrency r), errOpt (vOcrConfidence r), errOpt (vAiScore r),
   errOpt (vNotes r), errOpt (vRequires r)].filterMap id

/-- Embedding of `InvoiceData.model_validate`: succeeds iff every field
validates, otherwise reports the collected field errors. The `strict`
keyword of the second call in the source only switches off type coercion,
which our typed `RawField` representation already abstracts, so both calls
share this function. -/
def model_validate (r : RawInvoice) : Except (List String) InvoiceData :=
  match vInvoiceNumber r, vInvoiceDate r, vSupplierName r, vSupplierVat r,
        vSupplierAddress r, vCustomerName r, vCustomerVat r, vCustomerAddress r,
        vSubtotal r, vVatRate r, vVatAmount r, vTotalAmount r, vLineItems r,
        vPaymentTerms r, vDueDate r, vCurrency r, vOcrConfidence r, vAiScore r,
        vNotes r, vRequires r with
  | .ok a1, .ok a2, .ok a3, .ok a4, .ok a5, .ok a6, .ok a7, .ok a8, .ok a9,
    .ok a10, .ok a11, .ok a12, .ok a13, .ok a14, .ok a15, .ok a16, .ok a17,
    .ok a18, .ok a19, .ok a20 =>
    .ok ⟨a1, a2, a3, a4, a5, a6, a7, a8, a9, a10, a11, a12, a13, a14, a15,
         a16, a17, a18, a19, a20⟩
  | _, _, _, _, _, _, _, _, _, _, _, _, _, _, _, _, _, _, _, _ =>
    .error (validationErrors r)

/-- Configuration values read from `config.py` (business-rule thresholds
and the default VAT rate), with the source defaults. -/
structure Settings where
  VAT_RATE : ℚ := 22/100
  MAX_INVOICE_AMOUNT : ℚ := 100000
  AUTO_APPROVE_THRESHOLD : ℚ := 5000
  OCR_CONFIDENCE_THRESHOLD : ℚ := 70
deriving DecidableEq

def defaultSettings : Settings := {}

/-- Two-decimal rendering used by the `:.2f` note interpolations. Python
formats the binary double with round-half-even; we round the rational to
cents half-up, which agrees on every value the claims exercise. -/
def fmt2 (q : ℚ) : String :=
  let c : ℤ := round (q * 100)
  let ip : ℤ := c / 100
  let fr : ℤ := |c| % 100
  toString ip ++ "." ++ (if fr < 10 then "0" else "") ++ toString fr

def autoApproveNote (q : ℚ) : String :=
  "Importo EUR " ++ fmt2 q ++ " supera soglia auto-approvazione"

def maxAmountNote (q : ℚ) : String :=
  "Importo EUR " ++ fmt2 q ++ " supera limite massimo"

/-- One-decimal rendering used by the `:.1f` interpolation of the OCR
confidence note. -/
def fmt1 (q : ℚ) : String :=
  let t : ℤ := round (q * 10)
  toString (t / 10) ++ "." ++ toString (|t| % 10)

def lowOcrNote (q : ℚ) : String :=
  "Confidence OCR bassa: " ++ fmt1 q ++ "%"

def lowAiNote (q : ℚ) : String :=
  "Confidence AI bassa: " ++ fmt2 q

/-- First check of `_apply_business_rules`: auto-approval threshold. -/
def checkAutoApprove (st : Settings) (invoice : InvoiceData) : InvoiceData :=
  if invoice.total_amount > st.AUTO_APPROVE_THRESHOLD then
    { invoice with
      requires_manual_review := true
      validation_notes := invoice.validation_notes ++ [autoApproveNote invoice.total_amount] }
  else invoice

/-- Second check of `_apply_business_rules`: maximum invoice amount. -/
def checkMaxAmount (st : Settings) (invoice : InvoiceData) : InvoiceData :=
  if invoice.total_amount > st.MAX_INVOICE_AMOUNT then
    { invoice with
      requires_manual_review := true
      validation_notes := invoice.validation_notes ++ [maxAmountNote invoice.total_amount] }
  else invoice

/-- Third check of `_apply_business_rules`: OCR confidence threshold. -/
def checkOcrConf (st : Settings) (invoice : InvoiceData) : InvoiceData :=
  if invoice.ocr_confidence < st.OCR_CONFIDENCE_THRESHOLD then
    { invoice with
      requires_manual_review := true
      validation_notes := invoice.validation_notes ++ [lowOcrNote invoice.ocr_confidence] }
  else invoice

/-- Fourth check of `_apply_business_rules`: AI validation score. -/
def checkAiScore (invoice : InvoiceData) : InvoiceData :=
  if invoice.ai_validation_score < 7/10 then
    { invoice with
      requires_manual_review := true
      validation_notes := invoice.validation_notes ++ [lowAiNote invoice.ai_validation_score] }
  else invoice

/-- Embedding of `_apply_business_rules`: the four sequential threshold
checks, each of which may set the review flag and append one note. -/
def apply_business_rules (st : Settings) (invoice : InvoiceData) : InvoiceData :=
  checkAiScore (checkOcrConf st (checkMaxAmount st (checkAutoApprove st invoice)))

def lowSimilarityNote (q : ℚ) : String :=
  "Bassa coerenza semantica: " ++ fmt2 q

/-- The orchestrator's semantic-similarity gate inside `process_invoice`:
flag and append one note when the score is below 0.6. -/
def simGate (similarity : ℚ) (invoice : InvoiceData) : InvoiceData :=
  if similarity < 3/5 then
    { invoice with
      requires_manual_review := true
      validation_notes := invoice.validation_notes ++ [lowSimilarityNote similarity] }
  else invoice

/-- One outcome of the structuring-collaborator call: the call itself may
fail transiently, the returned content may fail JSON decoding, or it
decodes to a raw invoice dictionary. -/
inductive LLMResponse where
  | transientFailure
  | malformed
  | json (raw : RawInvoice)

/-- An exception escaping one attempt of
`validate_and_structure_invoice`. -/
inductive AttemptError where
  | transient
  | jsonDecode
  | validation (msg : String)
deriving DecidableEq

/-- Rendering of a Pydantic ValidationError as `str(e)`. -/
def errText (errs : List String) : String :=
  String.intercalate "; " errs

/-- The metadata stamping before validation:
`validated_data[ocr_confidence] = ocr_confidence` and
`validated_data[ai_validation_score] = validated_data.get(confidence_score, 0.9)`. -/
def stampMeta (raw : RawInvoice) (oc : ℚ) : RawInvoice :=
  { raw with
    ocr_confidence := .val oc
    ai_validation_score :=
      match raw.confidence_score with
      | .absent => .val (9/10)
      | .invalid => .invalid
      | .val q => .val q }

/-- The mutation performed in the `except` branch before the second
`model_validate` call: force the review flag and replace the notes with
the single error text. -/
def fallbackFix (vd : RawInvoice) (errs : List String) : RawInvoice :=
  { vd with
    requires_manual_review := .val true
    validation_notes := .val [errText errs] }

/-- One attempt of the body of `validate_and_structure_invoice`: call the
collaborator, decode, stamp metadata, validate, fall back to the
flag-and-replace re-validation on failure, and apply the business rules.
Any error value models an exception escaping the attempt. -/
def attempt (st : Settings) (rsp : LLMResponse) (oc : ℚ) :
    Except AttemptError InvoiceData :=
  match rsp with
  | .transientFailure => .error .transient
  | .malformed => .error .jsonDecode
  | .json raw =>
    match model_validate (stampMeta raw oc) with
    | .ok d => .ok (apply_business_rules st d)
    | .error errs =>
      match model_validate (fallbackFix (stampMeta raw oc) errs) with
      | .ok d => .ok (apply_business_rules st d)
      | .error errs2 => .error (.validation (errText errs2))

/-- Modelled from the spec and the tenacity call site:
`wait_exponential(multiplier=1, min=2, max=10)` sleeps
`clamp(2 ^ completed_attempts, 2, 10)` seconds before the next attempt. -/
def wait_exponential (attemptNumber : ℕ) : ℚ :=
  max 2 (min ((2 : ℚ) ^ attemptNumber) 10)

/-- Modelled from the spec and the tenacity decorator
`retry(stop=stop_after_attempt(3), wait=wait_exponential(...))`: run
attempts until one succeeds or the attempt budget is exhausted, sleeping
between attempts; any exception escaping an attempt triggers a retry.
Returns (attempts made, waits slept, final outcome). -/
def retryRun (st : Settings) (rsp : ℕ → LLMResponse) (oc : ℚ) :
    ℕ → ℕ → ℕ × List ℚ × Except AttemptError InvoiceData
  | _, 0 => (0, [], .error .transient)
  | attemptNo, fuel + 1 =>
    match attempt st (rsp attemptNo) oc with
    | .ok v => (1, [], .ok v)
    | .error e =>
      match fuel with
      | 0 => (1, [], .error e)
      | f + 1 =>
        let rest := retryRun st rsp oc (attemptNo + 1) (f + 1)
        (rest.1 + 1, wait_exponential attemptNo :: rest.2.1, rest.2.2)

/-- Embedding of `validate_and_structure_invoice`: the retry-decorated
attempt body with a budget of 3 attempts, the collaborator's per-attempt
responses supplied by the environment `rsp` (attempts are numbered from
1). -/
def validate_and_structure_invoice (st : Settings) (rsp : ℕ → LLMResponse)
    (oc : ℚ) : ℕ × List ℚ × Except AttemptError InvoiceData :=
  retryRun st rsp oc 1 3

theorem model_validate_ok_fields (r : RawInvoice) (d : InvoiceData)
    (h : model_validate r = .ok d) :
    vSubtotal r = .ok d.subtotal ∧ vVatRate r = .ok d.vat_rate ∧
      vVatAmount r = .ok d.vat_amount ∧ vTotalAmount r = .ok d.total_amount ∧
      vNotes r = .ok d.validation_notes ∧
      vRequires r = .ok d.requires_manual_review := by
  unfold model_validate at h
  split at h
  · injection h with h
    subst h
    refine ⟨?_, ?_, ?_, ?_, ?_, ?_⟩ <;> assumption
  · exact Except.noConfusion h

theorem vVatAmount_bound (r : RawInvoice) (v s rt : ℚ)
    (hv : vVatAmount r = .ok v) (hs : vSubtotal r = .ok s)
    (hrt : vVatRate r = .ok rt) : |v - s * rt| ≤ 1/100 := by
  unfold vVatAmount at hv
  rw [hs, hrt] at hv
  cases hb : vVatAmountBase r with
  | ok v0 =>
    rw [hb] at hv
    simp only [] at hv
    split at hv
    · exact Except.noConfusion hv
    · rename_i hc
      injection hv with hv
      subst hv
      linarith [not_lt.mp hc]
  | error e =>
    rw [hb] at hv
    exact Except.noConfusion hv

theorem vTotalAmount_bound (r : RawInvoice) (v s va : ℚ)
    (hv : vTotalAmount r = .ok v) (hs : vSubtotal r = .ok s)
    (hva : vVatAmount r = .ok va) : |v - (s + va)| ≤ 1/100 := by
  unfold vTotalAmount at hv
  rw [hs, hva] at hv
  cases hb : vTotalAmountBase r with
  | ok v0 =>
    rw [hb] at hv
    simp only [] at hv
    split at hv
    · exact Except.noConfusion hv
    · rename_i hc
      injection hv with hv
      subst hv
      linarith [not_lt.mp hc]
  | error e =>
    rw [hb] at hv
    exact Except.noConfusion hv

/-- On validation success, the two arithmetic invariants of the record
hold: they are exactly the checks of the field validators, which are
reachable because every referenced field validated. -/
theorem model_validate_ok_invariants (r : RawInvoice) (d : InvoiceData)
    (h : model_validate r = .ok d) :
    |d.vat_amount - d.subtotal * d.vat_rate| ≤ 1/100 ∧
      |d.total_amount - (d.subtotal + d.vat_amount)| ≤ 1/100 := by
  obtain ⟨hs, hrt, hva, htot, -, -⟩ := model_validate_ok_fields r d h
  exact ⟨vVatAmount_bound r _ _ _ hva hs hrt,
    vTotalAmount_bound r _ _ _ htot hs hva⟩

theorem vRequires_val (r : RawInvoice) (b : Bool)
    (h : r.requires_manual_review = .val b) : vRequires r = .ok b := by
  simp [vRequires, vFieldD, h]

theorem vNotes_val (r : RawInvoice) (l : List String)
    (h : r.validation_notes = .val l) : vNotes r = .ok l := by
  simp [vNotes, vFieldD, h]

theorem checkAutoApprove_spec (st : Settings) (d : InvoiceData) :
    (checkAutoApprove st d).requires_manual_review =
      (d.requires_manual_review || decide (d.total_amount > st.AUTO_APPROVE_THRESHOLD)) ∧
    (checkAutoApprove st d).validation_notes = d.validation_notes ++
      (if d.total_amount > st.AUTO_APPROVE_THRESHOLD then [autoApproveNote d.total_amount] else []) ∧
    (checkAutoApprove st d).total_amount = d.total_amount ∧
    (checkAutoApprove st d).ocr_confidence = d.ocr_confidence ∧
    (checkAutoApprove st d).ai_validation_score = d.ai_validation_score ∧
    (checkAutoApprove st d).subtotal = d.subtotal ∧
    (checkAutoApprove st d).vat_rate = d.vat_rate ∧
    (checkAutoApprove st d).vat_amount = d.vat_amount := by
  unfold checkAutoApprove
  split_ifs with h <;> simp [h]

theorem checkMaxAmount_spec (st : Settings) (d : InvoiceData) :
    (checkMaxAmount st d).requires_manual_review =
      (d.requires_manual_review || decide (d.total_amount > st.MAX_INVOICE_AMOUNT)) ∧
    (checkMaxAmount st d).validation_notes = d.validation_notes ++
      (if d.total_amount > st.MAX_INVOICE_AMOUNT then [maxAmountNote d.total_amount] else []) ∧
    (checkMaxAmount st d).total_amount = d.total_amount ∧
    (checkMaxAmount st d).ocr_confidence = d.ocr_confidence ∧
    (checkMaxAmount st d).ai_validation_score = d.ai_validation_score ∧
    (checkMaxAmount st d).subtotal = d.subtotal ∧
    (checkMaxAmount st d).vat_rate = d.vat_rate ∧
    (checkMaxAmount st d).vat_amount = d.vat_amount := by
  unfold checkMaxAmount
  split_ifs with h <;> simp [h]

theorem checkOcrConf_spec (st : Settings) (d : InvoiceData) :
    (checkOcrConf st d).requires_manual_review =
      (d.requires_manual_review || decide (d.ocr_confidence < st.OCR_CONFIDENCE_THRESHOLD)) ∧
    (checkOcrConf st d).validation_notes = d.validation_notes ++
      (if d.ocr_confidence < st.OCR_CONFIDENCE_THRESHOLD then [lowOcrNote d.ocr_confidence] else []) ∧
    (checkOcrConf st d).total_amount = d.total_amount ∧
    (checkOcrConf st d).ocr_confidence = d.ocr_confidence ∧
    (checkOcrConf st d).ai_validation_score = d.ai_validation_score ∧
    (checkOcrConf st d).subtotal = d.subtotal ∧
    (checkOcrConf st d).vat_rate = d.vat_rate ∧
    (checkOcrConf st d).vat_amount = d.vat_amount := by
  unfold checkOcrConf
  split_ifs with h <;> simp [h]

theorem checkAiScore_spec (d : InvoiceData) :
    (checkAiScore d).requires_manual_review =
      (d.requires_manual_review || decide (d.ai_validation_score < 7/10)) ∧
    (checkAiScore d).validation_notes = d.validation_notes ++
      (if d.ai_validation_score < 7/10 then [lowAiNote d.ai_validation_score] else []) ∧
    (checkAiScore d).total_amount = d.total_amount ∧
    (checkAiScore d).ocr_confidence = d.ocr_confidence ∧
    (checkAiScore d).ai_validation_score = d.ai_validation_score ∧
    (checkAiScore d).subtotal = d.subtotal ∧
    (checkAiScore d).vat_rate = d.vat_rate ∧
    (checkAiScore d).vat_amount = d.vat_amount := by
  unfold checkAiScore
  split_ifs with h <;> simp [h]

/-- Characterization of `_apply_business_rules`: the review flag is the
old flag OR-ed with the four threshold conditions, the notes are the old
notes extended with at most one note per firing check (in check order),
and the monetary and score fields are unchanged. -/
theorem apply_business_rules_spec (st : Settings) (d : InvoiceData) :
    (apply_business_rules st d).requires_manual_review =
      (d.requires_manual_review || decide (d.total_amount > st.AUTO_APPROVE_THRESHOLD) ||
        decide (d.total_amount > st.MAX_INVOICE_AMOUNT) ||
        decide (d.ocr_confidence < st.OCR_CONFIDENCE_THRESHOLD) ||
        decide (d.ai_validation_score < 7/10)) ∧
    (apply_business_rules st d).validation_notes =
      d.validation_notes ++
        ((if d.total_amount > st.AUTO_APPROVE_THRESHOLD then [autoApproveNote d.total_amount] else []) ++
         (if d.total_amount > st.MAX_INVOICE_AMOUNT then [maxAmountNote d.total_amount] else []) ++
         (if d.ocr_confidence < st.OCR_CONFIDENCE_THRESHOLD then [lowOcrNote d.ocr_confidence] else []) ++
         (if d.ai_validation_score < 7/10 then [lowAiNote d.ai_validation_score] else [])) ∧
    (apply_business_rules st d).subtotal = d.subtotal ∧
    (apply_business_rules st d).vat_rate = d.vat_rate ∧
    (apply_business_rules st d).vat_amount = d.vat_amount ∧
    (apply_business_rules st d).total_amount = d.total_amount ∧
    (apply_business_rules st d).ocr_confidence = d.ocr_confidence ∧
    (apply_business_rules st d).ai_validation_score = d.ai_validation_score := by
  obtain ⟨f1, n1, t1, o1, a1, s1, r1, v1⟩ := checkAutoApprove_spec st d
  obtain ⟨f2, n2, t2, o2, a2, s2, r2, v2⟩ := checkMaxAmount_spec st (checkAutoApprove st d)
  obtain ⟨f3, n3, t3, o3, a3, s3, r3, v3⟩ := checkOcrConf_spec st (checkMaxAmount st (checkAutoApprove st d))
  obtain ⟨f4, n4, t4, o4, a4, s4, r4, v4⟩ := checkAiScore_spec (checkOcrConf st (checkMaxAmount st (checkAutoApprove st d)))
  unfold apply_business_rules
  rw [f4, f3, f2, f1, n4, n3, n2, n1, t4, t3, t2, t1, o4, o3, o2, o1,
      a4, a3, a2, a1, s4, s3, s2, s1, r4, r3, r2, r1, v4, v3, v2, v1]
  simp [Bool.or_assoc, List.append_assoc]

/-- Characterization of the orchestrator's similarity gate: flag OR-ed
with the below-0.6 condition, notes extended with at most one note, other
fields unchanged. -/
theorem simGate_spec (sim : ℚ) (d : InvoiceData) :
    (simGate sim d).requires_manual_review =
      (d.requires_manual_review || decide (sim < 3/5)) ∧
    (simGate sim d).validation_notes = d.validation_notes ++
      (if sim < 3/5 then [lowSimilarityNote sim] else []) := by
  unfold simGate
  split_ifs with h <;> simp [h]

/-- The fallback re-validation, when it succeeds, yields a record whose
review flag is forced true and whose notes are exactly the single
replacement error text. -/
theorem fallback_ok_flag_and_notes (vd : RawInvoice) (errs : List String)
    (d : InvoiceData) (h : model_validate (fallbackFix vd errs) = .ok d) :
    d.requires_manual_review = true ∧ d.validation_notes = [errText errs] := by
  obtain ⟨-, -, -, -, hn, hr⟩ := model_validate_ok_fields _ _ h
  have h1 : vRequires (fallbackFix vd errs) = .ok true :=
    vRequires_val _ _ (by simp [fallbackFix])
  have h2 : vNotes (fallbackFix vd errs) = .ok [errText errs] :=
    vNotes_val _ _ (by simp [fallbackFix])
  rw [h1] at hr
  rw [h2] at hn
  exact ⟨(Except.ok.inj hr).symm, (Except.ok.inj hn).symm⟩

/-- A successful attempt that is not flagged for manual review satisfies
both arithmetic invariants: the fallback path always flags, so the record
came from a first-parse success, whose field validators enforced the
tolerances; the business rules do not touch the amounts. -/
theorem attempt_ok_unflagged_invariants (st : Settings) (rsp : LLMResponse)
    (oc : ℚ) (rec : InvoiceData) (h : attempt st rsp oc = .ok rec)
    (hf : rec.requires_manual_review = false) :
    |rec.vat_amount - rec.subtotal * rec.vat_rate| ≤ 1/100 ∧
      |rec.total_amount - (rec.subtotal + rec.vat_amount)| ≤ 1/100 := by
  cases rsp with
  | transientFailure => exact Except.noConfusion h
  | malformed => exact Except.noConfusion h
  | json raw =>
    unfold attempt at h
    simp only [] at h
    cases h1 : model_validate (stampMeta raw oc) with
    | ok d =>
      rw [h1] at h
      have hrec : rec = apply_business_rules st d := (Except.ok.inj h).symm
      obtain ⟨hi1, hi2⟩ := model_validate_ok_invariants _ _ h1
      obtain ⟨-, -, hs, hr, hv, ht, -, -⟩ := apply_business_rules_spec st d
      rw [hrec, hs, hr, hv, ht]
      exact ⟨hi1, hi2⟩
    | error errs =>
      rw [h1] at h
      simp only [] at h
      cases h2 : model_validate (fallbackFix (stampMeta raw oc) errs) with
      | ok d =>
        rw [h2] at h
        have hrec : rec = apply_business_rules st d := (Except.ok.inj h).symm
        obtain ⟨hflag, -⟩ := fallback_ok_flag_and_notes _ _ _ h2
        obtain ⟨hf2, -⟩ := apply_business_rules_spec st d
        rw [hrec, hf2, hflag] at hf
        simp at hf
      | error errs2 =>
        rw [h2] at h
        exact Except.noConfusion h

/-- A successful retry run returns the value of some successful attempt. -/
theorem retryRun_ok_attempt (st : Settings) (rsp : ℕ → LLMResponse) (oc : ℚ) :
    ∀ (f a : ℕ) (rec : InvoiceData),
      (retryRun st rsp oc a f).2.2 = .ok rec →
      ∃ i, attempt st (rsp i) oc = .ok rec := by
  intro f
  induction f with
  | zero =>
    intro a rec h
    simp [retryRun] at h
  | succ f ih =>
    intro a rec h
    unfold retryRun at h
    cases ha : attempt st (rsp a) oc with
    | ok v =>
      rw [ha] at h
      simp at h
      exact ⟨a, by rw [ha, h]⟩
    | error e =>
      rw [ha] at h
      cases f with
      | zero => simp at h
      | succ f2 =>
        simp only [] at h
        exact ih (a + 1) rec h

def attemptOk (x : Except AttemptError InvoiceData) : Bool :=
  match x with
  | .ok _ => true
  | .error _ => false

def isValidationFailure (x : Except AttemptError InvoiceData) : Bool :=
  match x with
  | .error (.validation _) => true
  | _ => false

def okValue {ε α : Type} : Except ε α → Option α
  | .ok a => some a
  | .error _ => none

/-- Closed form of the three-attempt retry loop: the outcome, attempt
count, and backoff sleeps as a function of the three per-attempt
results. -/
theorem retry3_closed (st : Settings) (rsp : ℕ → LLMResponse) (oc : ℚ) :
    validate_and_structure_invoice st rsp oc =
      match attempt st (rsp 1) oc with
      | .ok v => (1, [], .ok v)
      | .error _ =>
        match attempt st (rsp 2) oc with
        | .ok v => (2, [2], .ok v)
        | .error _ =>
          match attempt st (rsp 3) oc with
          | .ok v => (3, [2, 4], .ok v)
          | .error e => (3, [2, 4], .error e) := by
  cases a1 : attempt st (rsp 1) oc <;> cases a2 : attempt st (rsp 2) oc <;>
    cases a3 : attempt st (rsp 3) oc <;>
      simp [validate_and_structure_invoice, retryRun, wait_exponential,
        a1, a2, a3] <;> norm_num

/-- A fully valid collaborator response: a consistent invoice at the
standard 22 percent rate. -/
def goodRaw : RawInvoice where
  invoice_number := .val "2024/001"
  invoice_date := .val "2024-01-15"
  supplier_name := .val "ACME SRL"
  supplier_vat := .val "12345678901"
  supplier_address := .val none
  customer_name := .val "CLIENTE SPA"
  customer_vat := .val "10987654321"
  customer_address := .val none
  subtotal := .val 100
  vat_rate := .val (22/100)
  vat_amount := .val 22
  total_amount := .val 122
  line_items := .val []
  payment_terms := .val none
  due_date := .val none
  currency := .val "EUR"
  ocr_confidence := .absent
  ai_validation_score := .absent
  validation_notes := .val []
  requires_manual_review := .val false
  confidence_score := .val (9/10)

/-- A response whose required `subtotal` key is missing: it fails the
first validation and the fallback re-validation alike. -/
def rawMissingSubtotal : RawInvoice :=
  { goodRaw with subtotal := .absent }

/-- A response whose `requires_manual_review` key has an unusable type
while carrying a note from the collaborator: the first validation fails on
that key and the fallback (which overwrites both metadata keys)
succeeds. -/
def rawBadReviewFlag : RawInvoice :=
  { goodRaw with
    requires_manual_review := .invalid
    validation_notes := .val ["nota AI"] }

/-- Attempt environment whose first response is schema-invalid and whose
later responses are valid. -/
def rspSchemaThenGood : ℕ → LLMResponse :=
  fun n => if n = 1 then .json rawMissingSubtotal else .json goodRaw

/-- Attempt environment that always answers with the valid response. -/
def rspAllGood : ℕ → LLMResponse :=
  fun _ => .json goodRaw

def exceptToSum {ε α : Type} : Except ε α → ε ⊕ α
  | .error e => .inl e
  | .ok a => .inr a

instance exceptDecEq {ε α : Type} [DecidableEq ε] [DecidableEq α] :
    DecidableEq (Except ε α) := fun a b =>
  decidable_of_iff (exceptToSum a = exceptToSum b)
    (by cases a <;> cases b <;> simp [exceptToSum])

/-- The record accepted without a manual-review flag after the first
successful validation pass of `rspAllGood` at OCR confidence 80. -/
def c1Rec : InvoiceData :=
  ⟨"2024/001", "2024-01-15", "ACME SRL", "12345678901", none, "CLIENTE SPA",
   "10987654321", none, 100, 22/100, 22, 122, [], none, none, "EUR", 80,
   9/10, [], false⟩

/-- C1: every InvoiceRecord produced by `validate_and_structure_invoice`
that is not flagged `requires_manual_review` satisfies the arithmetic
invariants `|vat_amount - subtotal * vat_rate| <= 0.01` and
`|total_amount - (subtotal + vat_amount)| <= 0.01`: the Pydantic field
validators reject any candidate violating either tolerance, and the only
path producing an unflagged record is a first-pass validation success. -/
theorem C1_accepted_record_invariants (st : Settings) (rsp : ℕ → LLMResponse)
    (oc : ℚ) (rec : InvoiceData)
    (h : (validate_and_structure_invoice st rsp oc).2.2 = .ok rec)
    (hf : rec.requires_manual_review = false) :
    |rec.vat_amount - rec.subtotal * rec.vat_rate| ≤ 1/100 ∧
      |rec.total_amount - (rec.subtotal + rec.vat_amount)| ≤ 1/100 := by
  obtain ⟨i, hi⟩ := retryRun_ok_attempt st rsp oc 3 1 rec h
  exact attempt_ok_unflagged_invariants st (rsp i) oc rec hi hf

/-- Witness for C1 at a concrete accepted, unflagged record. -/
theorem C1_witness :
    (validate_and_structure_invoice defaultSettings rspAllGood 80).2.2 =
        .ok c1Rec ∧
      c1Rec.requires_manual_review = false ∧
      |c1Rec.vat_amount - c1Rec.subtotal * c1Rec.vat_rate| ≤ 1/100 ∧
      |c1Rec.total_amount - (c1Rec.subtotal + c1Rec.vat_amount)| ≤ 1/100 := by
  have h : (validate_and_structure_invoice defaultSettings rspAllGood 80).2.2 =
      .ok c1Rec := by with_unfolding_all decide
  have hf : c1Rec.requires_manual_review = false := by decide
  obtain ⟨h1, h2⟩ :=
    C1_accepted_record_invariants defaultSettings rspAllGood 80 c1Rec h hf
  exact ⟨h, hf, h1, h2⟩

/-- Counterexample to C2: the first attempt fails with a schema-validation
error (the required `subtotal` key is missing, so both the first parse and
the fallback re-parse reject), yet the retry mechanism performs a second
attempt and succeeds — a retry was triggered by a schema validation
failure of the collaborator's response, not by a transient call failure. -/
theorem C2_counterexample :
    isValidationFailure (attempt defaultSettings (rspSchemaThenGood 1) 80) = true ∧
      (validate_and_structure_invoice defaultSettings rspSchemaThenGood 80).1 = 2 ∧
      attemptOk (validate_and_structure_invoice defaultSettings rspSchemaThenGood 80).2.2 = true := by
  refine ⟨by with_unfolding_all decide, by with_unfolding_all decide,
    by with_unfolding_all decide⟩

/-- C2 (amended): the retry mechanism makes at most 3 attempts with
exponential backoff sleeps all within [2s, 10s] (concretely 2s then 4s),
but a retry is triggered by ANY exception escaping an attempt — transient
call failures, JSON-decoding failures, and schema-validation failures not
rescued by the fallback re-parse alike; only a first-attempt success
avoids retrying. -/
theorem C2_amended_retry_policy (st : Settings) (rsp : ℕ → LLMResponse) (oc : ℚ) :
    (validate_and_structure_invoice st rsp oc).1 ≤ 3 ∧
      (validate_and_structure_invoice st rsp oc).2.1 =
        List.take ((validate_and_structure_invoice st rsp oc).1 - 1) [2, 4] ∧
      (∀ w ∈ (validate_and_structure_invoice st rsp oc).2.1, 2 ≤ w ∧ w ≤ 10) ∧
      (attemptOk (attempt st (rsp 1) oc) = true →
        (validate_and_structure_invoice st rsp oc).1 = 1) ∧
      (attemptOk (attempt st (rsp 1) oc) = false →
        2 ≤ (validate_and_structure_invoice st rsp oc).1) := by
  rw [retry3_closed]
  cases a1 : attempt st (rsp 1) oc <;> cases a2 : attempt st (rsp 2) oc <;>
    cases a3 : attempt st (rsp 3) oc <;> simp [attemptOk] <;> norm_num

/-- Witness for the amended C2 at a concrete environment: first attempt
fails schema validation, the run retries once (sleeping 2s, inside the
[2,10] band) and stops at attempt 2 with a success. -/
theorem C2_witness :
    attemptOk (attempt defaultSettings (rspSchemaThenGood 1) 80) = false ∧
      (validate_and_structure_invoice defaultSettings rspSchemaThenGood 80).1 ≤ 3 ∧
      2 ≤ (validate_and_structure_invoice defaultSettings rspSchemaThenGood 80).1 ∧
      (validate_and_structure_invoice defaultSettings rspSchemaThenGood 80).2.1 =
        List.take ((validate_and_structure_invoice defaultSettings rspSchemaThenGood 80).1 - 1) [2, 4] := by
  have hfail : attemptOk (attempt defaultSettings (rspSchemaThenGood 1) 80) = false := by
    with_unfolding_all decide
  obtain ⟨hle, hws, -, -, hretry⟩ :=
    C2_amended_retry_policy defaultSettings rspSchemaThenGood 80
  exact ⟨hfail, hle, hretry hfail, hws⟩

/-- Counterexample to C3: the collaborator response `rawBadReviewFlag`
carries the note "nota AI" and fails the first validation (unusable
`requires_manual_review`). The fallback succeeds, but the resulting
record's notes are exactly the replacement error text: the prior note was
overwritten, not appended to. And a response with a missing required field
(`rawMissingSubtotal`) is not re-parsed leniently: the fallback fails too
and the attempt raises instead of producing a flagged record. -/
theorem C3_counterexample :
    rawBadReviewFlag.validation_notes = .val ["nota AI"] ∧
      (okValue (attempt defaultSettings (.json rawBadReviewFlag) 90)).map
          (fun d => d.validation_notes) =
        some ["requires_manual_review: invalid input"] ∧
      (okValue (attempt defaultSettings (.json rawBadReviewFlag) 90)).map
          (fun d => d.validation_notes.contains "nota AI") = some false ∧
      (okValue (attempt defaultSettings (.json rawBadReviewFlag) 90)).map
          (fun d => d.requires_manual_review) = some true ∧
      attemptOk (attempt defaultSettings (.json rawMissingSubtotal) 90) = false := by
  refine ⟨by decide, by with_unfolding_all decide, by with_unfolding_all decide,
    by with_unfolding_all decide, by with_unfolding_all decide⟩

/-- C3 (amended): on a schema/invariant failure of the first parse, the
response is re-parsed with `requires_manual_review` forced true and with
`validation_notes` REPLACED by the single-element list holding the
validation error text (any notes from the response are discarded, not
appended to); the re-parse applies the same full schema, so when it
succeeds the attempt returns that flagged record (after business rules),
and when it fails the exception escapes to the retry layer instead of
keeping the document. -/
theorem C3_amended_fallback (st : Settings) (raw : RawInvoice) (oc : ℚ)
    (errs : List String) (rec : InvoiceData)
    (h1 : model_validate (stampMeta raw oc) = .error errs)
    (h2 : model_validate (fallbackFix (stampMeta raw oc) errs) = .ok rec) :
    rec.requires_manual_review = true ∧
      rec.validation_notes = [errText errs] ∧
      attempt st (.json raw) oc = .ok (apply_business_rules st rec) := by
  obtain ⟨hf, hn⟩ := fallback_ok_flag_and_notes _ _ _ h2
  refine ⟨hf, hn, ?_⟩
  unfold attempt
  simp only []
  rw [h1]
  simp only []
  rw [h2]

/-- The record produced by the fallback re-validation of
`rawBadReviewFlag` at OCR confidence 90. -/
def c3Rec : InvoiceData :=
  ⟨"2024/001", "2024-01-15", "ACME SRL", "12345678901", none, "CLIENTE SPA",
   "10987654321", none, 100, 22/100, 22, 122, [], none, none, "EUR", 90,
   9/10, ["requires_manual_review: invalid input"], true⟩

/-- Witness for the amended C3 at the concrete failing-then-rescued
response. -/
theorem C3_witness :
    model_validate (stampMeta rawBadReviewFlag 90) =
        .error ["requires_manual_review: invalid input"] ∧
      model_validate (fallbackFix (stampMeta rawBadReviewFlag 90)
          ["requires_manual_review: invalid input"]) = .ok c3Rec ∧
      c3Rec.requires_manual_review = true ∧
      c3Rec.validation_notes = [errText ["requires_manual_review: invalid input"]] ∧
      attempt defaultSettings (.json rawBadReviewFlag) 90 =
        .ok (apply_business_rules defaultSettings c3Rec) := by
  have h1 : model_validate (stampMeta rawBadReviewFlag 90) =
      .error ["requires_manual_review: invalid input"] := by
    with_unfolding_all decide
  have h2 : model_validate (fallbackFix (stampMeta rawBadReviewFlag 90)
      ["requires_manual_review: invalid input"]) = .ok c3Rec := by
    with_unfolding_all decide
  obtain ⟨ha, hb, hc⟩ :=
    C3_amended_fallback defaultSettings rawBadReviewFlag 90
      ["requires_manual_review: invalid input"] c3Rec h1 h2
  exact ⟨h1, h2, ha, hb, hc⟩

/-- One entry of the parallel arrays returned by the OCR engine's
image_to_data call (index i of text/conf/left/top/width/height/block_num/
line_num). -/
structure TessWord where
  text : String
  conf : ℤ
  left : ℤ
  top : ℤ
  width : ℤ
  height : ℤ
  block_num : ℤ
  line_num : ℤ
deriving DecidableEq

/-- One entry of `OCRResult.word_data` as built by `extract_text`. -/
structure WordInfo where
  text : String
  confidence : ℤ
  bbox : ℤ × ℤ × ℤ × ℤ
  block_num : ℤ
  line_num : ℤ
deriving DecidableEq

/-- Result of `extract_text`, mirroring the `OCRResult` dataclass
(`layout_data` carries the raw engine output). -/
structure OCRResult where
  text : String
  confidence : ℚ
  word_data : List WordInfo
  layout_data : List TessWord
deriving DecidableEq

def mkWordInfo (w : TessWord) : WordInfo :=
  ⟨w.text, w.conf, (w.left, w.top, w.width, w.height), w.block_num, w.line_num⟩

/-- The filtering loop of `extract_text`: keep only entries with
confidence strictly greater than 0, building the word list and the
confidence list in parallel. -/
def collectWords : List TessWord → List WordInfo × List ℤ
  | [] => ([], [])
  | w :: ws =>
    let rest := collectWords ws
    if w.conf > 0 then (mkWordInfo w :: rest.1, w.conf :: rest.2) else rest

/-- Embedding of `extract_text`: the OCR engine collaborator supplies the
word-level data and the full text; the aggregate confidence is the mean of
the kept confidences, or 0 when none are kept. -/
def extract_text (data : List TessWord) (text : String) : OCRResult :=
  let wd := (collectWords data).1
  let confidences := (collectWords data).2
  let avg : ℚ :=
    if confidences = [] then 0 else (confidences.sum : ℚ) / (confidences.length : ℚ)
  ⟨text, avg, wd, data⟩

theorem collectWords_eq (l : List TessWord) :
    collectWords l = ((l.filter (fun w => w.conf > 0)).map mkWordInfo,
      (l.filter (fun w => w.conf > 0)).map (fun w => w.conf)) := by
  induction l with
  | nil => rfl
  | cons w ws ih =>
    unfold collectWords
    rw [ih]
    by_cases h : w.conf > 0 <;> simp [List.filter_cons, h]

/-- C8: the aggregate confidence of an `OCRResult` returned by
`extract_text` is the arithmetic mean of the confidences of exactly the
words with confidence strictly greater than 0; zero-confidence entries are
excluded from both the word list and the mean, and when no word has
positive confidence the aggregate confidence is 0. -/
theorem C8_confidence_is_mean_of_positive (data : List TessWord) (text : String) :
    (extract_text data text).word_data =
      (data.filter (fun w => w.conf > 0)).map mkWordInfo ∧
    (extract_text data text).confidence =
      (if data.filter (fun w => w.conf > 0) = [] then (0 : ℚ) else
        (((data.filter (fun w => w.conf > 0)).map (fun w => w.conf)).sum : ℚ) /
          ((data.filter (fun w => w.conf > 0)).length : ℚ)) := by
  unfold extract_text
  rw [collectWords_eq]
  refine ⟨rfl, ?_⟩
  simp only []
  by_cases h : data.filter (fun w => w.conf > 0) = [] <;>
    simp [h, Function.comp_def]

/-- Abstract pixel buffer: none of the verified properties inspect pixel
contents, only which transform is applied. -/
structure Image where
  id : ℕ
deriving DecidableEq

/-- The angle-normalization branch of `_deskew`: the raw angle comes from
the minimum-area bounding rotation estimate (`cv2.minAreaRect`, whose
classic convention reports an angle in [-90, 0)). -/
def deskewAngle (rawAngle : ℚ) : ℚ :=
  if rawAngle < -45 then -(90 + rawAngle) else -rawAngle

/-- Embedding of `_deskew`: rotate (cubic interpolation and border
handling abstracted into `rotate`) only when the normalized angle exceeds
0.5 degrees in absolute value; otherwise return the image unchanged. -/
def deskew (rotate : Image → ℚ → Image) (rawAngle : ℚ) (img : Image) : Image :=
  if |deskewAngle rawAngle| > 1/2 then rotate img (deskewAngle rawAngle) else img

/-- C9: for every raw angle in the minimum-area-rectangle convention
[-90, 0], the normalization branch (negate angles >= -45, map angles
< -45 via -(90+angle)) lands in (-45, 45], and the rotation is applied
exactly when the normalized angle exceeds 0.5 degrees in absolute value,
the image being returned unchanged otherwise. -/
theorem C9_deskew_angle_normalization (rawAngle : ℚ)
    (h1 : -90 ≤ rawAngle) (h2 : rawAngle ≤ 0) :
    (-45 < deskewAngle rawAngle ∧ deskewAngle rawAngle ≤ 45) ∧
    ∀ (rotate : Image → ℚ → Image) (img : Image),
      (|deskewAngle rawAngle| > 1/2 →
        deskew rotate rawAngle img = rotate img (deskewAngle rawAngle)) ∧
      (¬(|deskewAngle rawAngle| > 1/2) → deskew rotate rawAngle img = img) := by
  constructor
  · unfold deskewAngle
    split_ifs with hc
    · constructor <;> linarith
    · constructor <;> [linarith [not_lt.mp hc]; linarith]
  · intro rotate img
    constructor <;> intro h
    · unfold deskew
      rw [if_pos h]
    · unfold deskew
      rw [if_neg h]

/-- Witness for C9 at the concrete raw angle -30: normalized to 30,
inside (-45, 45], and the rotation branch fires. -/
theorem C9_witness :
    ((-90 : ℚ) ≤ -30 ∧ (-30 : ℚ) ≤ 0) ∧
      (-45 < deskewAngle (-30) ∧ deskewAngle (-30) ≤ 45) ∧
      deskew (fun i _ => i) (-30) ⟨0⟩ = ⟨0⟩ := by
  obtain ⟨hb, hr⟩ := C9_deskew_angle_normalization (-30) (by norm_num) (by norm_num)
  refine ⟨⟨by norm_num, by norm_num⟩, hb, ?_⟩
  exact (hr (fun i _ => i) ⟨0⟩).1 (by norm_num [deskewAngle])

/-- Case-insensitive literal match (the extraction regexes are compiled
with IGNORECASE): consume `lit` from the front of `cs`. -/
def matchLitCI : List Char → List Char → Option (List Char)
  | [], cs => some cs
  | _ :: _, [] => none
  | l :: ls, c :: cs => if c.toLower = l.toLower then matchLitCI ls cs else none

/-- Consume `\s+`: at least one whitespace character, greedily. -/
def wsPlus : List Char → Option (List Char)
  | c :: t => if c.isWhitespace then some (t.dropWhile Char.isWhitespace) else none
  | [] => none

/-- Consume `[:\s]+`: at least one colon-or-whitespace, greedily. -/
def colonWsPlus : List Char → Option (List Char)
  | c :: t =>
    if c = ':' ∨ c.isWhitespace then
      some (t.dropWhile (fun x => x == ':' || x.isWhitespace))
    else none
  | [] => none

/-- Consume `\d{n}`: exactly n digits. -/
def takeDigitsN : ℕ → List Char → Option (List Char × List Char)
  | 0, cs => some ([], cs)
  | _ + 1, [] => none
  | n + 1, c :: cs =>
    if c.isDigit then (takeDigitsN n cs).map (fun p => (c :: p.1, p.2)) else none

/-- Greedy bounded digit munch for `\d{1,k}`-style tokens (equivalent to
the regex with backtracking here because every following pattern element
is a non-digit). -/
def takeUpTo (k : ℕ) (cs : List Char) : List Char × List Char :=
  let ds := (cs.takeWhile Char.isDigit).take k
  (ds, cs.drop ds.length)

/-- re.search: try the position matcher at each start position from the
left; first position that matches wins. -/
def searchWith (tryAt : List Char → Option (List Char)) : List Char → Option (List Char)
  | [] => none
  | c :: rest => tryAt (c :: rest) <|> searchWith tryAt rest

theorem takeDigitsN_spec : ∀ (n : ℕ) (cs ds r : List Char),
    takeDigitsN n cs = some (ds, r) →
    ds.length = n ∧ ds.all Char.isDigit = true := by
  intro n
  induction n with
  | zero =>
    intro cs ds r h
    simp [takeDigitsN] at h
    simp [h.1]
  | succ n ih =>
    intro cs ds r h
    match cs with
    | [] => simp [takeDigitsN] at h
    | c :: cs =>
      unfold takeDigitsN at h
      split_ifs at h with hc
      · cases hrec : takeDigitsN n cs with
        | none => rw [hrec] at h; simp at h
        | some p =>
          rw [hrec] at h
          simp at h
          obtain ⟨h1, h2⟩ := h
          obtain ⟨hl, ha⟩ := ih cs p.1 p.2 (by rw [hrec])
          subst h1
          simp [hl, ha, hc]

theorem searchWith_spec (tryAt : List Char → Option (List Char))
    (P : List Char → Prop)
    (hP : ∀ cs ds, tryAt cs = some ds → P ds) :
    ∀ cs ds, searchWith tryAt cs = some ds → P ds := by
  intro cs
  induction cs with
  | nil => intro ds h; simp [searchWith] at h
  | cons c rest ih =>
    intro ds h
    unfold searchWith at h
    cases ht : tryAt (c :: rest) with
    | some d0 =>
      rw [ht] at h
      simp at h
      subst h
      exact hP _ _ ht
    | none =>
      rw [ht] at h
      simp at h
      exact ih ds h

/-- Prefix alternatives of the first vat_number pattern
`(?:p\.?\s*iva|partita\s+iva|vat)` (alternation order as written; the
alternatives are mutually exclusive at any position). -/
def vatPrefixA (cs : List Char) : Option (List Char) :=
  (do
    let r1 ← matchLitCI ['p'] cs
    let r2 := match r1 with
      | '.' :: t => t
      | _ => r1
    let r3 := r2.dropWhile Char.isWhitespace
    matchLitCI ['i', 'v', 'a'] r3) <|>
  (do
    let r1 ← matchLitCI "partita".toList cs
    let r2 ← wsPlus r1
    matchLitCI "iva".toList r2) <|>
  matchLitCI "vat".toList cs

/-- Prefix alternatives of the second vat_number pattern
`(?:tax\s+id|fiscal\s+code)`. -/
def vatPrefixB (cs : List Char) : Option (List Char) :=
  (do
    let r1 ← matchLitCI "tax".toList cs
    let r2 ← wsPlus r1
    matchLitCI "id".toList r2) <|>
  (do
    let r1 ← matchLitCI "fiscal".toList cs
    let r2 ← wsPlus r1
    matchLitCI "code".toList r2)

/-- Position matcher for a vat pattern: prefix, then `[:\s]*`, then the
capture group `(\d{11})`. -/
def tryVatAt (pre : List Char → Option (List Char)) (cs : List Char) :
    Option (List Char) := do
  let r ← pre cs
  let r2 := r.dropWhile (fun x => x == ':' || x.isWhitespace)
  let (ds, _) ← takeDigitsN 11 r2
  pure ds

theorem tryVatAt_digits (pre : List Char → Option (List Char))
    (cs ds : List Char) (h : tryVatAt pre cs = some ds) :
    ds.length = 11 ∧ ds.all Char.isDigit = true := by
  unfold tryVatAt at h
  cases hp : pre cs with
  | none => rw [hp] at h; simp at h
  | some r =>
    rw [hp] at h
    simp only [Option.bind_eq_bind, Option.some_bind] at h
    cases ht : takeDigitsN 11 (r.dropWhile (fun x => x == ':' || x.isWhitespace)) with
    | none => rw [ht] at h; simp at h
    | some p =>
      rw [ht] at h
      simp at h
      subst h
      exact takeDigitsN_spec 11 _ p.1 p.2 (by rw [ht])

/-- Position matcher for the first invoice_number pattern
`(?:fattura|invoice|n[°\.º]?)\s*[:\-]?\s*(\d{4,}[/\-]?\d*)`. -/
def tryInvoiceAAt (cs : List Char) : Option (List Char) := do
  let r ← matchLitCI "fattura".toList cs <|> matchLitCI "invoice".toList cs <|>
    (do
      let r0 ← matchLitCI ['n'] cs
      pure (match r0 with
        | c :: t => if c = '°' ∨ c = '.' ∨ c = 'º' then t else r0
        | [] => r0))
  let r2 := r.dropWhile Char.isWhitespace
  let r3 := match r2 with
    | c :: t => if c = ':' ∨ c = '-' then t else r2
    | [] => r2
  let r4 := r3.dropWhile Char.isWhitespace
  let ds := r4.takeWhile Char.isDigit
  if ds.length < 4 then none
  else
    match r4.drop ds.length with
    | c :: t =>
      if c = '/' ∨ c = '-' then some (ds ++ c :: t.takeWhile Char.isDigit)
      else some ds
    | [] => some ds

/-- Position matcher for `(?:FT|INV|DOC)[:\-\s]*(\d{4,})`. -/
def tryInvoiceBAt (cs : List Char) : Option (List Char) := do
  let r ← matchLitCI "ft".toList cs <|> matchLitCI "inv".toList cs <|>
    matchLitCI "doc".toList cs
  let r2 := r.dropWhile (fun c => c == ':' || c == '-' || c.isWhitespace)
  let ds := r2.takeWhile Char.isDigit
  if ds.length < 4 then none else some ds

/-- Position matcher for `numero\s+(?:fattura|documento)[:\s]+(\d+)`. -/
def tryInvoiceCAt (cs : List Char) : Option (List Char) := do
  let r1 ← matchLitCI "numero".toList cs
  let r2 ← wsPlus r1
  let r3 ← matchLitCI "fattura".toList r2 <|> matchLitCI "documento".toList r2
  let r4 ← colonWsPlus r3
  let ds := r4.takeWhile Char.isDigit
  if ds.length < 1 then none else some ds

def isDateSep (c : Char) : Bool := c == '/' || c == '-' || c == '.'

/-- Position matcher for the first date pattern
`(\d{1,2}[/\-\.]\d{1,2}[/\-\.]\d{2,4})`. -/
def tryDateAAt (cs : List Char) : Option (List Char) :=
  let (d1, r1) := takeUpTo 2 cs
  if d1.length < 1 then none
  else
    match r1 with
    | s1 :: r2 =>
      if isDateSep s1 then
        let (d2, r3) := takeUpTo 2 r2
        if d2.length < 1 then none
        else
          match r3 with
          | s2 :: r4 =>
            if isDateSep s2 then
              let (d3, _) := takeUpTo 4 r4
              if d3.length < 2 then none
              else some (d1 ++ s1 :: (d2 ++ s2 :: d3))
            else none
          | [] => none
      else none
    | [] => none

/-- Position matcher for the second date pattern
`(\d{4}[/\-\.]\d{1,2}[/\-\.]\d{1,2})`. -/
def tryDateBAt (cs : List Char) : Option (List Char) := do
  let (d1, r1) ← takeDigitsN 4 cs
  match r1 with
  | s1 :: r2 =>
    if isDateSep s1 then
      let (d2, r3) := takeUpTo 2 r2
      if d2.length < 1 then none
      else
        match r3 with
        | s2 :: r4 =>
          if isDateSep s2 then
            let (d3, _) := takeUpTo 2 r4
            if d3.length < 1 then none
            else some (d1 ++ s1 :: (d2 ++ s2 :: d3))
          else none
        | [] => none
    else none
  | [] => none

/-- Position matcher for the amount patterns
`(?:totale|total|importo)[:\s]+€?\s*([\d\.,]+)` and
`(?:grand\s+total|net\s+amount)[:\s]+€?\s*([\d\.,]+)`. -/
def tryAmountAt (pre : List Char → Option (List Char)) (cs : List Char) :
    Option (List Char) := do
  let r ← pre cs
  let r2 ← colonWsPlus r
  let r3 := match r2 with
    | c :: t => if c = '€' then t else r2
    | [] => r2
  let r4 := r3.dropWhile Char.isWhitespace
  let ds := r4.takeWhile (fun c => c.isDigit || c == '.' || c == ',')
  if ds.length < 1 then none else some ds

def amountPrefixA (cs : List Char) : Option (List Char) :=
  matchLitCI "totale".toList cs <|> matchLitCI "total".toList cs <|>
    matchLitCI "importo".toList cs

def amountPrefixB (cs : List Char) : Option (List Char) :=
  (do
    let r ← matchLitCI "grand".toList cs
    let r2 ← wsPlus r
    matchLitCI "total".toList r2) <|>
  (do
    let r ← matchLitCI "net".toList cs
    let r2 ← wsPlus r
    matchLitCI "amount".toList r2)

def isLocalChar (c : Char) : Bool :=
  c.isAlphanum || c == '.' || c == '_' || c == '%' || c == '+' || c == '-'

def isDomainChar (c : Char) : Bool :=
  c.isAlphanum || c == '.' || c == '-'

/-- Position matcher approximating the email regex
`\b[A-Za-z0-9._%+-]+@[A-Za-z0-9.-]+\.[A-Z|a-z]{2,}\b` (the regex has no
group, so the whole match is the value; word boundaries and backtracking
niceties are immaterial to every verified property). -/
def tryEmailAt (cs : List Char) : Option (List Char) :=
  let lp := cs.takeWhile isLocalChar
  if lp.length < 1 then none
  else
    match cs.drop lp.length with
    | '@' :: r =>
      let dom := r.takeWhile isDomainChar
      match (dom.reverse.takeWhile Char.isAlpha).reverse with
      | [] => none
      | tld =>
        if 2 ≤ tld.length ∧ dom.length > tld.length ∧
            dom.get? (dom.length - tld.length - 1) = some '.' then
          some (lp ++ '@' :: dom)
        else none
    | _ => none

/-- The `InvoiceField` dataclass. -/
structure InvoiceField where
  value : String
  confidence : ℚ
  bbox : ℤ × ℤ × ℤ × ℤ
  field_type : String
deriving DecidableEq

/-- The field dictionary built by `extract_invoice_fields`, one optional
entry per pattern key, in the insertion order of `self.patterns`. -/
structure ExtractedFields where
  invoice_number : Option InvoiceField
  date : Option InvoiceField
  vat_number : Option InvoiceField
  amount : Option InvoiceField
  email : Option InvoiceField
deriving DecidableEq

/-- Python substring test `needle in hay` on character lists. -/
def containsSub : List Char → List Char → Bool
  | needle, [] => needle.isEmpty
  | needle, c :: t => needle.isPrefixOf (c :: t) || containsSub needle t

def lcList (s : String) : List Char := s.toList.map Char.toLower

/-- Python `str.split()`: split on whitespace runs, dropping empties. -/
def splitWsGo : List Char → List Char → List (List Char)
  | [], acc => if acc.isEmpty then [] else [acc.reverse]
  | c :: rest, acc =>
    if c.isWhitespace then
      if acc.isEmpty then splitWsGo rest [] else acc.reverse :: splitWsGo rest []
    else splitWsGo rest (c :: acc)

def stripList (l : List Char) : List Char :=
  ((l.dropWhile Char.isWhitespace).reverse.dropWhile Char.isWhitespace).reverse

/-- Python `str.strip()`. -/
def pyStrip (s : String) : String := String.mk (stripList s.toList)

/-- Embedding of `_find_bbox_for_text`: the bbox of the first word whose
text contains the value case-insensitively, else the zero box. -/
def find_bbox_for_text (t : String) (wd : List WordInfo) : ℤ × ℤ × ℤ × ℤ :=
  match wd.find? (fun w => containsSub (lcList t) (lcList w.text)) with
  | some w => w.bbox
  | none => (0, 0, 0, 0)

/-- Embedding of `_calculate_field_confidence`: mean confidence over the
words case-insensitively containing any whitespace-token of the value,
0 when none match. -/
def calculate_field_confidence (value : String) (wd : List WordInfo) : ℚ :=
  let parts := splitWsGo value.toList []
  let matching := wd.filter
    (fun w => parts.any (fun p => containsSub (p.map Char.toLower) (lcList w.text)))
  if matching.isEmpty then 0
  else ((matching.map (fun w => w.confidence)).sum : ℚ) / (matching.length : ℚ)

/-- Embedding of `_extract_field`: try the compiled patterns in order; on
the first match build the field from the captured value (confidence and
bbox computed on the unstripped capture, the stored value stripped). -/
def extract_field (text : String) (wd : List WordInfo)
    (matchers : List (String → Option String)) (ftype : String) :
    Option InvoiceField :=
  matchers.findSome? (fun m => (m text).map (fun v =>
    { value := pyStrip v
      confidence := calculate_field_confidence v wd
      bbox := find_bbox_for_text v wd
      field_type := ftype }))

def invMatcherA (t : String) : Option String :=
  (searchWith tryInvoiceAAt t.toList).map String.mk

def invMatcherB (t : String) : Option String :=
  (searchWith tryInvoiceBAt t.toList).map String.mk

def invMatcherC (t : String) : Option String :=
  (searchWith tryInvoiceCAt t.toList).map String.mk

def dateMatcherA (t : String) : Option String :=
  (searchWith tryDateAAt t.toList).map String.mk

def dateMatcherB (t : String) : Option String :=
  (searchWith tryDateBAt t.toList).map String.mk

def vatMatcherA (t : String) : Option String :=
  (searchWith (tryVatAt vatPrefixA) t.toList).map String.mk

def vatMatcherB (t : String) : Option String :=
  (searchWith (tryVatAt vatPrefixB) t.toList).map String.mk

def amountMatcherA (t : String) : Option String :=
  (searchWith (tryAmountAt amountPrefixA) t.toList).map String.mk

def amountMatcherB (t : String) : Option String :=
  (searchWith (tryAmountAt amountPrefixB) t.toList).map String.mk

def emailMatcher (t : String) : Option String :=
  (searchWith tryEmailAt t.toList).map String.mk

def digitVal (c : Char) : ℕ := c.toNat - 48

def natFromDigits (cs : List Char) : ℕ :=
  cs.foldl (fun a c => 10 * a + digitVal c) 0

/-- strptime token `%d` / `%m`: one or two digits, maximal munch (their
regex alternations are equivalent to this because the following element of
every format is a non-digit separator or the end of input). -/
def takeNum2 : List Char → Option (ℕ × List Char)
  | [] => none
  | [c] => if c.isDigit then some (digitVal c, []) else none
  | c1 :: c2 :: rest =>
    if c1.isDigit then
      if c2.isDigit then some (10 * digitVal c1 + digitVal c2, rest)
      else some (digitVal c1, c2 :: rest)
    else none

/-- strptime token `%Y`: exactly four digits. -/
def takeNum4 : List Char → Option (ℕ × List Char)
  | a :: b :: c :: d :: rest =>
    if a.isDigit && b.isDigit && c.isDigit && d.isDigit then
      some (1000 * digitVal a + 100 * digitVal b + 10 * digitVal c + digitVal d, rest)
    else none
  | _ => none

/-- strptime token `%y`: exactly two digits, mapped to 1969-2068. -/
def takeNumY2 : List Char → Option (ℕ × List Char)
  | a :: b :: rest =>
    if a.isDigit && b.isDigit then
      let v := 10 * digitVal a + digitVal b
      some (if v ≤ 68 then 2000 + v else 1900 + v, rest)
    else none
  | _ => none

def expectCh (sep : Char) : List Char → Option (List Char)
  | c :: rest => if c = sep then some rest else none
  | [] => none

def isLeapYear (y : ℕ) : Bool :=
  y % 4 == 0 && (y % 100 != 0 || y % 400 == 0)

def daysInMonth (y m : ℕ) : ℕ :=
  if m = 2 then (if isLeapYear y then 29 else 28)
  else if m = 4 ∨ m = 6 ∨ m = 9 ∨ m = 11 then 30
  else 31

/-- The datetime constructor's range validation. -/
def mkDate (y m d : ℕ) : Option (ℕ × ℕ × ℕ) :=
  if 1 ≤ y ∧ y ≤ 9999 ∧ 1 ≤ m ∧ m ≤ 12 ∧ 1 ≤ d ∧ d ≤ daysInMonth y m then
    some (y, m, d)
  else none

/-- strptime with format `%d<sep>%m<sep>%Y` over the whole string. -/
def parseDMY (sep : Char) (cs : List Char) : Option (ℕ × ℕ × ℕ) := do
  let (d, r1) ← takeNum2 cs
  let r2 ← expectCh sep r1
  let (m, r3) ← takeNum2 r2
  let r4 ← expectCh sep r3
  let (y, r5) ← takeNum4 r4
  if r5.isEmpty then mkDate y m d else none

/-- strptime with format `%Y-%m-%d` over the whole string. -/
def parseYMD (cs : List Char) : Option (ℕ × ℕ × ℕ) := do
  let (y, r1) ← takeNum4 cs
  let r2 ← expectCh '-' r1
  let (m, r3) ← takeNum2 r2
  let r4 ← expectCh '-' r3
  let (d, r5) ← takeNum2 r4
  if r5.isEmpty then mkDate y m d else none

/-- strptime with format `%d/%m/%y` over the whole string. -/
def parseDMy2 (cs : List Char) : Option (ℕ × ℕ × ℕ) := do
  let (d, r1) ← takeNum2 cs
  let r2 ← expectCh '/' r1
  let (m, r3) ← takeNum2 r2
  let r4 ← expectCh '/' r3
  let (y, r5) ← takeNumY2 r4
  if r5.isEmpty then mkDate y m d else none

def pad2 (n : ℕ) : String := (if n < 10 then "0" else "") ++ toString n

def pad4 (n : ℕ) : String :=
  (if n < 10 then "000" else if n < 100 then "00" else if n < 1000 then "0" else "")
    ++ toString n

/-- strftime `%Y-%m-%d`. -/
def toIso (ymd : ℕ × ℕ × ℕ) : String :=
  pad4 ymd.1 ++ "-" ++ pad2 ymd.2.1 ++ "-" ++ pad2 ymd.2.2

/-- Embedding of `_normalize_date`: try the fixed format list in order,
first successful parse wins, render as ISO; None when no format parses. -/
def normalize_date (s : String) : Option String :=
  ([parseDMY '/', parseDMY '-', parseDMY '.', parseYMD, parseDMy2].findSome?
    (fun p => p s.toList)).map toIso

/-- vat_number branch of `_post_process_fields`: strip non-digits; store
the stripped value only when exactly 11 digits remain, otherwise log a
warning and leave the entry as it was. -/
def ppVat (f : ExtractedFields) : ExtractedFields :=
  match f.vat_number with
  | none => f
  | some fld =>
    let vat := fld.value.toList.filter Char.isDigit
    if vat.length = 11 then
      { f with vat_number := some { fld with value := String.mk vat } }
    else f

/-- date branch of `_post_process_fields`: replace the value with the
normalized ISO rendering when some format parses, else leave unchanged. -/
def ppDate (f : ExtractedFields) : ExtractedFields :=
  match f.date with
  | none => f
  | some fld =>
    match normalize_date fld.value with
    | some dn => { f with date := some { fld with value := dn } }
    | none => f

/-- Python float() on the separator-normalized amount string, restricted
to the digits-and-one-point shapes that survive the replace calls. -/
def parseFloatQ (cs : List Char) : Option ℚ :=
  let ip := cs.takeWhile Char.isDigit
  match cs.drop ip.length with
  | [] => if ip.isEmpty then none else some (natFromDigits ip : ℚ)
  | '.' :: fr =>
    let fp := fr.takeWhile Char.isDigit
    if ¬(fr.drop fp.length).isEmpty then none
    else if ip.isEmpty ∧ fp.isEmpty then none
    else some ((natFromDigits ip : ℚ) + (natFromDigits fp : ℚ) / (10 : ℚ) ^ fp.length)
  | _ => none

/-- amount branch of `_post_process_fields`: drop thousands dots, turn the
decimal comma into a dot, parse, and re-render with two decimals; on parse
failure log a warning and leave the entry as it was. -/
def ppAmount (f : ExtractedFields) : ExtractedFields :=
  match f.amount with
  | none => f
  | some fld =>
    let s2 := (fld.value.toList.filter (fun c => c ≠ '.')).map
      (fun c => if c = ',' then '.' else c)
    match parseFloatQ s2 with
    | some q => { f with amount := some { fld with value := fmt2 q } }
    | none => f

/-- Embedding of `_post_process_fields`: vat, date, amount branches in
source order. -/
def post_process_fields (f : ExtractedFields) : ExtractedFields :=
  ppAmount (ppDate (ppVat f))

/-- Embedding of `extract_invoice_fields`: per-type first-match pattern
extraction followed by post-processing. -/
def extract_invoice_fields (text : String) (wd : List WordInfo) :
    ExtractedFields :=
  post_process_fields
    { invoice_number :=
        extract_field text wd [invMatcherA, invMatcherB, invMatcherC] "invoice_number"
      date := extract_field text wd [dateMatcherA, dateMatcherB] "date"
      vat_number := extract_field text wd [vatMatcherA, vatMatcherB] "vat_number"
      amount := extract_field text wd [amountMatcherA, amountMatcherB] "amount"
      email := extract_field text wd [emailMatcher] "email" }

theorem digit_not_ws (c : Char) (h : c.isDigit = true) : c.isWhitespace = false := by
  by_contra hw
  have hw2 : c.isWhitespace = true := by
    cases hx : c.isWhitespace
    · exact absurd hx hw
    · rfl
  have h4 : ((c = ' ' ∨ c = '\t') ∨ c = '\x0d') ∨ c = '\n' := by
    simpa [Char.isWhitespace] using hw2
  rcases h4 with ((h1 | h1) | h1) | h1 <;> subst h1 <;> simp [Char.isDigit] at h

theorem dropWhile_ws_of_digits (l : List Char) (h : l.all Char.isDigit = true) :
    l.dropWhile Char.isWhitespace = l := by
  cases l with
  | nil => rfl
  | cons c t =>
    have hc : c.isDigit = true := by
      simp [List.all_cons] at h
      exact h.1
    simp [List.dropWhile, digit_not_ws c hc]

theorem stripList_of_digits (l : List Char) (h : l.all Char.isDigit = true) :
    stripList l = l := by
  unfold stripList
  rw [dropWhile_ws_of_digits l h]
  rw [dropWhile_ws_of_digits l.reverse (by simpa using h)]
  exact List.reverse_reverse l

theorem vatMatcherA_digits (t : String) (s : String)
    (h : vatMatcherA t = some s) :
    s.toList.length = 11 ∧ s.toList.all Char.isDigit = true := by
  unfold vatMatcherA at h
  cases hs : searchWith (tryVatAt vatPrefixA) t.toList with
  | none => rw [hs] at h; simp at h
  | some ds =>
    rw [hs] at h
    simp at h
    subst h
    exact searchWith_spec (tryVatAt vatPrefixA)
      (fun ds => ds.length = 11 ∧ ds.all Char.isDigit = true)
      (tryVatAt_digits vatPrefixA) t.toList ds hs

theorem vatMatcherB_digits (t : String) (s : String)
    (h : vatMatcherB t = some s) :
    s.toList.length = 11 ∧ s.toList.all Char.isDigit = true := by
  unfold vatMatcherB at h
  cases hs : searchWith (tryVatAt vatPrefixB) t.toList with
  | none => rw [hs] at h; simp at h
  | some ds =>
    rw [hs] at h
    simp at h
    subst h
    exact searchWith_spec (tryVatAt vatPrefixB)
      (fun ds => ds.length = 11 ∧ ds.all Char.isDigit = true)
      (tryVatAt_digits vatPrefixB) t.toList ds hs

theorem extract_field_value (text : String) (wd : List WordInfo)
    (ft : String) : ∀ (ms : List (String → Option String)) (fld : InvoiceField),
    extract_field text wd ms ft = some fld →
    ∃ m ∈ ms, ∃ v, m text = some v ∧ fld.value = pyStrip v := by
  intro ms
  induction ms with
  | nil => intro fld h; simp [extract_field] at h
  | cons m ms ih =>
    intro fld h
    unfold extract_field at h
    rw [List.findSome?_cons] at h
    cases hm : m text with
    | some v =>
      rw [hm] at h
      simp at h
      exact ⟨m, by simp, v, hm, by rw [← h]⟩
    | none =>
      rw [hm] at h
      simp at h
      obtain ⟨m2, hmem, v, hv, heq⟩ := ih fld h
      exact ⟨m2, by simp [hmem], v, hv, heq⟩

theorem ppDate_vat (f : ExtractedFields) : (ppDate f).vat_number = f.vat_number := by
  unfold ppDate
  cases hd : f.date with
  | none => rfl
  | some fld =>
    simp only []
    split <;> rfl

theorem ppAmount_vat (f : ExtractedFields) : (ppAmount f).vat_number = f.vat_number := by
  unfold ppAmount
  cases ha : f.amount with
  | none => rfl
  | some fld =>
    simp only []
    split <;> rfl

theorem ppVat_date (f : ExtractedFields) : (ppVat f).date = f.date := by
  unfold ppVat
  cases hv : f.vat_number with
  | none => rfl
  | some fld =>
    simp only []
    split_ifs <;> rfl

theorem ppAmount_date (f : ExtractedFields) : (ppAmount f).date = f.date := by
  unfold ppAmount
  cases ha : f.amount with
  | none => rfl
  | some fld =>
    simp only []
    split <;> rfl

theorem post_process_vat (f : ExtractedFields) :
    (post_process_fields f).vat_number = (ppVat f).vat_number := by
  unfold post_process_fields
  rw [ppAmount_vat, ppDate_vat]

/-- Counterexample to C4: a vat_number entry whose value strips to 3
digits is NOT dropped from the mapping by post-processing; it stays
present with its original value (the else branch only logs a warning). -/
theorem C4_counterexample :
    ((⟨"AB123", 50, (0, 0, 0, 0), "vat_number"⟩ : InvoiceField).value.toList.filter
        Char.isDigit).length = 3 ∧
      (post_process_fields
          ⟨none, none, some ⟨"AB123", 50, (0, 0, 0, 0), "vat_number"⟩, none, none⟩).vat_number =
        some ⟨"AB123", 50, (0, 0, 0, 0), "vat_number"⟩ := by
  exact ⟨by decide, by decide⟩

/-- C4 (amended): post-processing strips non-digits from the vat_number
value and stores the stripped value only when exactly 11 digits remain;
otherwise it logs a warning and LEAVES the field in the mapping with its
original value (it is not dropped). Nevertheless, every vat_number field
present in the output of `extract_invoice_fields` has a value of exactly
11 digits, because both extraction patterns capture exactly `\d{11}`. -/
theorem C4_amended_vat_postprocessing :
    (∀ (flds : ExtractedFields) (fld : InvoiceField),
      flds.vat_number = some fld →
      (fld.value.toList.filter Char.isDigit).length ≠ 11 →
      (post_process_fields flds).vat_number = some fld) ∧
    (∀ (text : String) (wd : List WordInfo) (fld : InvoiceField),
      (extract_invoice_fields text wd).vat_number = some fld →
      fld.value.toList.length = 11 ∧ fld.value.toList.all Char.isDigit = true) := by
  constructor
  · intro flds fld hv hlen
    rw [post_process_vat]
    unfold ppVat
    rw [hv]
    simp only []
    rw [if_neg hlen]
    exact hv
  · intro text wd fld h
    unfold extract_invoice_fields at h
    rw [post_process_vat] at h
    unfold ppVat at h
    simp only [] at h
    cases hE : extract_field text wd [vatMatcherA, vatMatcherB] "vat_number" with
    | none => rw [hE] at h; simp at h
    | some fld0 =>
      rw [hE] at h
      simp only [] at h
      obtain ⟨m, hm, v, hmv, hval⟩ := extract_field_value text wd "vat_number"
        [vatMatcherA, vatMatcherB] fld0 hE
      have hdig : v.toList.length = 11 ∧ v.toList.all Char.isDigit = true := by
        simp at hm
        rcases hm with hm | hm
        · exact vatMatcherA_digits text v (by rw [← hm]; exact hmv)
        · exact vatMatcherB_digits text v (by rw [← hm]; exact hmv)
      have hval0 : fld0.value.toList = v.toList := by
        rw [hval]
        show stripList v.toList = v.toList
        exact stripList_of_digits v.toList hdig.2
      have hfilter : fld0.value.toList.filter Char.isDigit = fld0.value.toList := by
        refine List.filter_eq_self.mpr ?_
        intro a ha
        exact List.all_eq_true.mp (hval0 ▸ hdig.2) a ha
      rw [hfilter] at h
      rw [if_pos (by rw [hval0]; exact hdig.1)] at h
      have hfld : fld = { fld0 with value := String.mk fld0.value.toList } := by
        have := Option.some.inj h
        rw [← this]
      rw [hfld]
      show (fld0.value.toList.length = 11) ∧ (fld0.value.toList.all Char.isDigit = true)
      rw [hval0]
      exact hdig

/-- The vat field extracted from a concrete OCR text. -/
def c4VatFld : InvoiceField := ⟨"12345678901", 0, (0, 0, 0, 0), "vat_number"⟩

/-- Witness for the amended C4: a concrete text whose extracted vat field
carries exactly 11 digits. -/
theorem C4_witness :
    (extract_invoice_fields "p.iva: 12345678901" []).vat_number = some c4VatFld ∧
      c4VatFld.value.toList.length = 11 ∧
      c4VatFld.value.toList.all Char.isDigit = true := by
  have h : (extract_invoice_fields "p.iva: 12345678901" []).vat_number =
      some c4VatFld := by decide
  obtain ⟨h1, h2⟩ :=
    C4_amended_vat_postprocessing.2 "p.iva: 12345678901" [] c4VatFld h
  exact ⟨h, h1, h2⟩

/-- C7: date normalization tries the ordered format list D/M/Y, D-M-Y,
D.M.Y, Y-M-D, D/M/YY; the first successful parse wins, rendering ISO
YYYY-MM-DD; with no match the field value is left unchanged by
post-processing. In particular "31/12/2024" normalizes to "2024-12-31",
"2024-12-31" is returned unchanged, and "not-a-date" stays unparsed. -/
theorem C7_date_normalization :
    normalize_date "31/12/2024" = some "2024-12-31" ∧
      normalize_date "2024-12-31" = some "2024-12-31" ∧
      normalize_date "not-a-date" = none ∧
      (∀ (s : String) (ymd : ℕ × ℕ × ℕ), parseDMY '/' s.toList = some ymd →
        normalize_date s = some (toIso ymd)) ∧
      (∀ (flds : ExtractedFields) (fld : InvoiceField), flds.date = some fld →
        normalize_date fld.value = none →
        (post_process_fields flds).date = some fld) := by
  refine ⟨by decide, by decide, by decide, ?_, ?_⟩
  · intro s ymd hp
    unfold normalize_date
    rw [List.findSome?_cons]
    simp only [hp]
    rfl
  · intro flds fld hdate hnone
    unfold post_process_fields
    rw [ppAmount_date]
    unfold ppDate
    rw [ppVat_date, hdate]
    simp only []
    rw [hnone]
    simp only []
    rw [ppVat_date, hdate]

/-- A date field that no source format parses. -/
def c7Fld : InvoiceField := ⟨"not-a-date", 10, (0, 0, 0, 0), "date"⟩

def c7Flds : ExtractedFields := ⟨none, some c7Fld, none, none, none⟩

/-- Witness for C7 at concrete inputs: the slash format parses
"31/12/2024" (first format wins and renders ISO), and an unparsable date
value passes through post-processing unchanged. -/
theorem C7_witness :
    parseDMY '/' "31/12/2024".toList = some (2024, 12, 31) ∧
      normalize_date "31/12/2024" = some (toIso (2024, 12, 31)) ∧
      normalize_date "not-a-date" = none ∧
      (post_process_fields c7Flds).date = some c7Fld := by
  have hp : parseDMY '/' "31/12/2024".toList = some (2024, 12, 31) := by decide
  have hn : normalize_date "not-a-date" = none := by decide
  obtain ⟨-, -, -, h4, h5⟩ := C7_date_normalization
  exact ⟨hp, h4 "31/12/2024" (2024, 12, 31) hp, hn, h5 c7Flds c7Fld rfl hn⟩

/-- Rendering of the exception that escapes the retry-wrapped validator
call into the error message stored by the orchestrator's handler. -/
def attemptErrorMsg : AttemptError → String
  | .transient => "transient service error"
  | .jsonDecode => "response is not valid JSON"
  | .validation m => m

/-- Embedding of `semantic_similarity_check`: clamp the parsed score to
[0, 1]; a response that does not parse as a float yields 0.5. -/
def semantic_similarity_check (parsed : Option ℚ) : ℚ :=
  match parsed with
  | some q => min (max q 0) 1
  | none => 1/2

/-- Per-document environment: the outcome of each effectful stage of
`process_invoice` (PDF conversion, image preprocessing, the OCR engine
call, the structuring collaborator's per-attempt responses, and the
similarity call with its optionally parseable score). -/
structure PipelineEnv where
  prepared : Except String Unit
  preprocessed : Except String Unit
  ocrData : Except String (List TessWord × String)
  aiResponses : ℕ → LLMResponse
  simResponse : Except String (Option ℚ)

/-- The body of the `try` block of `process_invoice`: stages in source
order; any stage error aborts the body with that error. -/
def processBody (st : Settings) (env : PipelineEnv) :
    Except String (InvoiceData × ℚ × ℚ) :=
  match env.prepared with
  | .error e => .error e
  | .ok _ =>
    match env.preprocessed with
    | .error e => .error e
    | .ok _ =>
      match env.ocrData with
      | .error e => .error e
      | .ok od =>
        let ocrRes := extract_text od.1 od.2
        let _flds := extract_invoice_fields ocrRes.text ocrRes.word_data
        match (validate_and_structure_invoice st env.aiResponses ocrRes.confidence).2.2 with
        | .error e => .error (attemptErrorMsg e)
        | .ok validated =>
          match env.simResponse with
          | .error e => .error e
          | .ok parsed =>
            let similarity := semantic_similarity_check parsed
            .ok (simGate similarity validated, ocrRes.confidence, similarity)

/-- The per-document result dictionary of `process_invoice`. -/
inductive ProcResult where
  | success (invoice_data : InvoiceData) (ocr_confidence : ℚ)
      (semantic_similarity : ℚ) (requires_manual_review : Bool)
      (file_path : String)
  | failure (error : String) (file_path : String)
deriving DecidableEq

/-- The orchestrator's running counters. -/
structure Stats where
  processed : ℕ
  successful : ℕ
  failed : ℕ
  manual_review : ℕ
deriving DecidableEq

/-- Embedding of `process_invoice`: run the staged body under the
catch-all handler, convert any stage error into an error result carrying
the message and the file path, and update the counters exactly once. -/
def process_invoice (st : Settings) (env : PipelineEnv) (stats : Stats)
    (file_path : String) : Stats × ProcResult :=
  match processBody st env with
  | .ok (inv, oc, sim) =>
    let stats1 : Stats := { stats with processed := stats.processed + 1 }
    let stats2 : Stats :=
      if inv.requires_manual_review then
        { stats1 with manual_review := stats1.manual_review + 1 }
      else { stats1 with successful := stats1.successful + 1 }
    (stats2, .success inv oc sim inv.requires_manual_review file_path)
  | .error e =>
    ({ stats with processed := stats.processed + 1, failed := stats.failed + 1 },
      .failure e file_path)

/-- C5: `requires_manual_review` is monotonic within one pipeline run:
each business-rule check and the orchestrator's semantic-similarity gate
can only OR the flag with its own condition and append at most one note to
the existing notes; a true flag is never cleared and no note is ever
removed. -/
theorem C5_review_monotonic (st : Settings) (d : InvoiceData) (sim : ℚ) :
    ((apply_business_rules st d).requires_manual_review =
      (d.requires_manual_review || decide (d.total_amount > st.AUTO_APPROVE_THRESHOLD) ||
        decide (d.total_amount > st.MAX_INVOICE_AMOUNT) ||
        decide (d.ocr_confidence < st.OCR_CONFIDENCE_THRESHOLD) ||
        decide (d.ai_validation_score < 7/10))) ∧
    ((apply_business_rules st d).validation_notes =
      d.validation_notes ++
        ((if d.total_amount > st.AUTO_APPROVE_THRESHOLD then [autoApproveNote d.total_amount] else []) ++
         (if d.total_amount > st.MAX_INVOICE_AMOUNT then [maxAmountNote d.total_amount] else []) ++
         (if d.ocr_confidence < st.OCR_CONFIDENCE_THRESHOLD then [lowOcrNote d.ocr_confidence] else []) ++
         (if d.ai_validation_score < 7/10 then [lowAiNote d.ai_validation_score] else []))) ∧
    ((simGate sim d).requires_manual_review =
      (d.requires_manual_review || decide (sim < 3/5))) ∧
    ((simGate sim d).validation_notes =
      d.validation_notes ++ (if sim < 3/5 then [lowSimilarityNote sim] else [])) ∧
    (d.requires_manual_review = true →
      (apply_business_rules st d).requires_manual_review = true ∧
        (simGate sim d).requires_manual_review = true) := by
  obtain ⟨hf, hn, -, -, -, -, -, -⟩ := apply_business_rules_spec st d
  obtain ⟨hsf, hsn⟩ := simGate_spec sim d
  refine ⟨hf, hn, hsf, hsn, ?_⟩
  intro hd
  rw [hf, hsf, hd]
  simp

/-- Witness for C5 at a concrete flagged record: neither the business
rules nor the gate clear the flag. -/
theorem C5_witness :
    c3Rec.requires_manual_review = true ∧
      (apply_business_rules defaultSettings c3Rec).requires_manual_review = true ∧
      (simGate (1/2) c3Rec).requires_manual_review = true := by
  obtain ⟨-, -, -, -, himp⟩ := C5_review_monotonic defaultSettings c3Rec (1/2)
  have h := himp (by decide)
  exact ⟨by decide, h.1, h.2⟩

/-- C6: every stage error inside `process_invoice` is caught and
converted into an error result carrying the error message and the original
file path; a successful body yields a success result; nothing escapes to
the caller (the embedding is a total function whose error branch is the
source's catch-all `except`). -/
theorem C6_error_isolation (st : Settings) (env : PipelineEnv) (stats : Stats)
    (path : String) :
    (∀ e, processBody st env = .error e →
      process_invoice st env stats path =
        ({ stats with processed := stats.processed + 1, failed := stats.failed + 1 },
          .failure e path)) ∧
    (∀ v, processBody st env = .ok v →
      (process_invoice st env stats path).2 =
        .success v.1 v.2.1 v.2.2 v.1.requires_manual_review path) ∧
    (∀ m, env.prepared = .error m →
      (process_invoice st env stats path).2 = .failure m path) ∧
    (∀ m, env.prepared = .ok () → env.preprocessed = .error m →
      (process_invoice st env stats path).2 = .failure m path) ∧
    (∀ m, env.prepared = .ok () → env.preprocessed = .ok () →
      env.ocrData = .error m →
      (process_invoice st env stats path).2 = .failure m path) := by
  have main1 : ∀ e, processBody st env = .error e →
      process_invoice st env stats path =
        ({ stats with processed := stats.processed + 1, failed := stats.failed + 1 },
          .failure e path) := by
    intro e he
    unfold process_invoice
    rw [he]
  refine ⟨main1, ?_, ?_, ?_, ?_⟩
  · intro v hv
    obtain ⟨inv, oc, sim⟩ := v
    unfold process_invoice
    rw [hv]
  · intro m hm
    rw [main1 m (by unfold processBody; rw [hm])]
  · intro m h1 hm
    rw [main1 m (by unfold processBody; rw [h1, hm])]
  · intro m h1 h2 hm
    rw [main1 m (by unfold processBody; rw [h1, h2, hm])]

/-- C10: each completed call to `process_invoice` increments `processed`
exactly once and exactly one of `successful`, `manual_review`, `failed`,
so the partition `processed = successful + manual_review + failed` is
preserved. -/
theorem C10_stats_partition (st : Settings) (env : PipelineEnv) (stats : Stats)
    (path : String) :
    ((process_invoice st env stats path).1.processed = stats.processed + 1) ∧
    ((process_invoice st env stats path).1.successful +
        (process_invoice st env stats path).1.manual_review +
        (process_invoice st env stats path).1.failed =
      stats.successful + stats.manual_review + stats.failed + 1) ∧
    (stats.processed = stats.successful + stats.manual_review + stats.failed →
      (process_invoice st env stats path).1.processed =
        (process_invoice st env stats path).1.successful +
          (process_invoice st env stats path).1.manual_review +
          (process_invoice st env stats path).1.failed) := by
  unfold process_invoice
  cases hb : processBody st env with
  | error e =>
    refine ⟨rfl, by simp [Nat.add_assoc, Nat.add_comm, Nat.add_left_comm], ?_⟩
    intro h
    simp only []
    omega
  | ok v =>
    obtain ⟨inv, oc, sim⟩ := v
    simp only []
    split_ifs with hr
    · refine ⟨rfl, by dsimp only []; omega, by intro h; dsimp only []; omega⟩
    · refine ⟨rfl, by dsimp only []; omega, by intro h; dsimp only []; omega⟩

/-- Environment of a document whose image cannot be loaded. -/
def envPrepFail : PipelineEnv :=
  ⟨.error "Impossibile caricare immagine", .ok (), .ok ([], ""), rspAllGood,
    .ok (some (8/10))⟩

/-- Environment of a document for which every stage succeeds. -/
def envAllOk : PipelineEnv :=
  ⟨.ok (), .ok (), .ok ([⟨"testo", 90, 0, 0, 0, 0, 0, 0⟩], "testo"), rspAllGood,
    .ok (some (8/10))⟩

/-- Witness for C6: a concrete stage failure becomes an error result
carrying the message and the file path. -/
theorem C6_witness :
    processBody defaultSettings envPrepFail = .error "Impossibile caricare immagine" ∧
      process_invoice defaultSettings envPrepFail ⟨0, 0, 0, 0⟩ "inv001.pdf" =
        (⟨1, 0, 1, 0⟩, .failure "Impossibile caricare immagine" "inv001.pdf") := by
  have hb : processBody defaultSettings envPrepFail =
      .error "Impossibile caricare immagine" := rfl
  have h := (C6_error_isolation defaultSettings envPrepFail ⟨0, 0, 0, 0⟩
    "inv001.pdf").1 _ hb
  exact ⟨hb, h⟩

/-- Witness for C10: starting from a zero counter state that satisfies the
partition, one completed call preserves it. -/
theorem C10_witness :
    ((0 : ℕ) = 0 + 0 + 0) ∧
      (process_invoice defaultSettings envAllOk ⟨0, 0, 0, 0⟩ "inv001.pdf").1.processed = 0 + 1 ∧
      (process_invoice defaultSettings envAllOk ⟨0, 0, 0, 0⟩ "inv001.pdf").1.processed =
        (process_invoice defaultSettings envAllOk ⟨0, 0, 0, 0⟩ "inv001.pdf").1.successful +
          (process_invoice defaultSettings envAllOk ⟨0, 0, 0, 0⟩ "inv001.pdf").1.manual_review +
          (process_invoice defaultSettings envAllOk ⟨0, 0, 0, 0⟩ "inv001.pdf").1.failed := by
  obtain ⟨h1, -, h3⟩ :=
    C10_stats_partition defaultSettings envAllOk ⟨0, 0, 0, 0⟩ "inv001.pdf"
  exact ⟨by decide, h1, h3 (by decide)⟩
